import Mathlib

/-!
Shallow embedding of the form2mail service (Go) for specification checking.

The repository is a small HTTP endpoint that accepts contact-form
submissions and relays them as two emails over SMTP:

* `src/internal/handler/contact.go` — the HTTP handler (`ContactHandler.ServeHTTP`);
* `src/internal/email/sender.go` — the SMTP sender (manual session);
* `src/unnamed/part_001` — an alternative sender built on `smtp.SendMail`;
* `src/unnamed/part_002` — the `config` package (`config.Load`, `getEnv`);
* `src/cmd/server/main.go` — startup wiring and required-config validation.

Network and process effects (the SMTP exchange, the HTTP transport) are
modelled by their observable data: the composed wire message and envelope
for a dispatch, and a `Response` value for the HTTP side.  The outcomes of
the two SMTP dispatch attempts are inputs (`SmtpOutcome`), since they are
decided by the external mail server.
-/

namespace Form2Mail

/-! ### String helpers modelled on Go's `strings` package -/

/-- Model of Go `strings.HasPrefix` restricted to rune lists: does `s` start
with `pat`? -/
def listStartsWith : List Char → List Char → Bool
  | [], _ => true
  | _ :: _, [] => false
  | p :: ps, c :: cs => p == c && listStartsWith ps cs

/-- Helper for `goContains`: does `pat` occur as a contiguous run inside `s`?
Checked at every suffix of `s`. -/
def listHasSub (s pat : List Char) : Bool :=
  if listStartsWith pat s then true
  else
    match s with
    | [] => false
    | _ :: rest => listHasSub rest pat

/-- Model of Go `strings.Contains s sub`: `sub` occurs contiguously in `s`.
As in Go, the empty pattern is contained in every string. -/
def goContains (s sub : String) : Bool :=
  listHasSub s.toList sub.toList

/-- Fuel-driven core of `goReplaceAll`: scan left to right, replacing each
non-overlapping occurrence of `pat` (non-empty in every use in this
repository) by `repl`.  Fuel is the length of the input, which suffices
because each step consumes at least one character. -/
def replaceAllAux (pat repl : List Char) : Nat → List Char → List Char
  | 0, s => s
  | _ + 1, [] => []
  | fuel + 1, c :: cs =>
    if pat ≠ [] && listStartsWith pat (c :: cs) then
      repl ++ replaceAllAux pat repl fuel (List.drop (pat.length - 1) cs)
    else
      c :: replaceAllAux pat repl fuel cs

/-- Model of Go `strings.ReplaceAll s pat repl` for non-empty `pat` (the only
use in this repository is `pat = "\n"`). -/
def goReplaceAll (s pat repl : String) : String :=
  String.mk (replaceAllAux pat.toList repl.toList s.toList.length s.toList)

/-! ### Configuration (`src/unnamed/part_002`, package `config`) -/

/-- `config.Config` from the `config` package: process-wide, read-only
configuration. -/
structure Config where
  SMTPHost : String
  SMTPPort : String
  SMTPUser : String
  SMTPPassword : String
  RecipientEmail : String
  FromEmail : String
  ServerPort : String
  CORSOrigin : String
  deriving DecidableEq, Repr

/-- `getEnv` from the `config` package.  Go's `os.Getenv` yields `""` for an
unset variable, so the environment is modelled as a total map to strings and
`getEnv` falls back to the default exactly when the looked-up value is
empty. -/
def getEnv (env : String → String) (key defaultValue : String) : String :=
  if env key == "" then defaultValue else env key

/-- `config.Load` from the `config` package. -/
def Config.Load (env : String → String) : Config :=
  { SMTPHost := getEnv env "SMTP_HOST" "smtp.gmail.com"
    SMTPPort := getEnv env "SMTP_PORT" "587"
    SMTPUser := getEnv env "SMTP_USER" ""
    SMTPPassword := getEnv env "SMTP_PASSWORD" ""
    RecipientEmail := getEnv env "RECIPIENT_EMAIL" ""
    FromEmail := getEnv env "FROM_EMAIL" ""
    ServerPort := getEnv env "SERVER_PORT" "8080"
    CORSOrigin := getEnv env "CORS_ORIGIN" "*" }

/-- The required-config check in `main` (src/cmd/server/main.go): the process
terminates fatally (`log.Fatal`) exactly when this is `true`. -/
def mainConfigFatal (cfg : Config) : Bool :=
  cfg.SMTPUser == "" || cfg.SMTPPassword == "" || cfg.RecipientEmail == ""

/-! ### The SMTP sender (`src/internal/email/sender.go`) -/

/-- One email handed to `Sender.Send`: destination, subject line and HTML
body. -/
structure MailMessage where
  toAddr : String
  subject : String
  body : String
  deriving DecidableEq, Repr

/-- The observable data of one SMTP submission: the dialed address, the
envelope (MAIL FROM / RCPT TO) and the transmitted message bytes.  Session
mechanics (HELO, STARTTLS, AUTH, QUIT) have no further observable effect on
the submitted mail and are not part of the model. -/
structure SmtpSubmission where
  addr : String
  mailFrom : String
  rcptTo : List String
  message : String
  deriving DecidableEq, Repr

/-- `email.Sender` from sender.go: holds the process configuration. -/
structure Sender where
  config : Config
  deriving DecidableEq, Repr

/-- `email.NewSender` from sender.go. -/
def NewSender (cfg : Config) : Sender := { config := cfg }

/-- The message bytes composed by `Sender.Send` in sender.go: From, To,
Subject, MIME-Version and Content-Type headers, a blank line, the body, and
a trailing CRLF. -/
def Sender.composeMessage (s : Sender) (toAddr subject body : String) : String :=
  "From: " ++ s.config.FromEmail ++ "\r\n" ++
  "To: " ++ toAddr ++ "\r\n" ++
  "Subject: " ++ subject ++ "\r\n" ++
  "MIME-Version: 1.0\r\n" ++
  "Content-Type: text/html; charset=UTF-8\r\n" ++
  "\r\n" ++
  body ++ "\r\n"

/-- `Sender.Send` from sender.go (manual SMTP session): dials
`SMTPHost:SMTPPort`, sets the envelope sender to `FromEmail`
(`client.Mail`), the single recipient to `to` (`client.Rcpt`), and
transmits the composed message. -/
def Sender.Send (s : Sender) (toAddr subject body : String) : SmtpSubmission :=
  { addr := s.config.SMTPHost ++ ":" ++ s.config.SMTPPort
    mailFrom := s.config.FromEmail
    rcptTo := [toAddr]
    message := s.composeMessage toAddr subject body }

/-- The notification mail built by `Sender.SendContactNotification` in
sender.go: fixed recipient `RecipientEmail`, subject prefixed with
"New Contact Form Submission: ", and the HTML template with the message's
newlines replaced by `<br>`. -/
def Sender.SendContactNotification (s : Sender)
    (name email subject message : String) : MailMessage :=
  { toAddr := s.config.RecipientEmail
    subject := "New Contact Form Submission: " ++ subject
    body :=
      "\n\t\t<html>\n\t\t<body>\n\t\t\t<h2>New Contact Form Submission</h2>\n\t\t\t<p><strong>Name:</strong> " ++
      (name ++
      ("</p>\n\t\t\t<p><strong>Email:</strong> " ++
      (email ++
      ("</p>\n\t\t\t<p><strong>Subject:</strong> " ++
      (subject ++
      ("</p>\n\t\t\t<p><strong>Message:</strong></p>\n\t\t\t<p>" ++
      (goReplaceAll message "\n" "<br>" ++
      "</p>\n\t\t</body>\n\t\t</html>\n\t"))))))) }

/-- The confirmation mail built by `Sender.SendConfirmation` in sender.go:
recipient is the submitter's own address, fixed subject, and the HTML
template echoing the message with newlines replaced by `<br>`. -/
def Sender.SendConfirmation (s : Sender)
    (name email message : String) : MailMessage :=
  { toAddr := email
    subject := "Thank you for contacting us"
    body :=
      "\n\t\t<html>\n\t\t<body>\n\t\t\t<h2>Thank you for your message, " ++
      (name ++
      ("!</h2>\n\t\t\t<p>We have received your contact form submission and will get back to you as soon as possible.</p>\n\t\t\t<hr>\n\t\t\t<p><strong>Your message:</strong></p>\n\t\t\t<p>" ++
      (goReplaceAll message "\n" "<br>" ++
      "</p>\n\t\t\t<hr>\n\t\t\t<p>Best regards</p>\n\t\t</body>\n\t\t</html>\n\t"))) }

/-! ### The alternative sender (`src/unnamed/part_001`, `smtp.SendMail`) -/

namespace SendMailImpl

/-- `email.Sender` from the `smtp.SendMail`-based variant. -/
structure Sender where
  config : Config
  deriving DecidableEq, Repr

/-- `email.NewSender` from the variant. -/
def NewSender (cfg : Config) : Sender := { config := cfg }

/-- The message bytes composed by the variant's `Sender.Send` before calling
`smtp.SendMail`. -/
def Sender.composeMessage (s : Sender) (toAddr subject body : String) : String :=
  "From: " ++ s.config.FromEmail ++ "\r\n" ++
  "To: " ++ toAddr ++ "\r\n" ++
  "Subject: " ++ subject ++ "\r\n" ++
  "MIME-Version: 1.0\r\n" ++
  "Content-Type: text/html; charset=UTF-8\r\n" ++
  "\r\n" ++
  body ++ "\r\n"

/-- The variant's `Sender.Send`: `smtp.SendMail(addr, auth, FromEmail,
[to], msg)` with `addr = SMTPHost:SMTPPort`. -/
def Sender.Send (s : Sender) (toAddr subject body : String) : SmtpSubmission :=
  { addr := s.config.SMTPHost ++ ":" ++ s.config.SMTPPort
    mailFrom := s.config.FromEmail
    rcptTo := [toAddr]
    message := s.composeMessage toAddr subject body }

/-- The variant's `Sender.SendContactNotification` builder. -/
def Sender.SendContactNotification (s : Sender)
    (name email subject message : String) : MailMessage :=
  { toAddr := s.config.RecipientEmail
    subject := "New Contact Form Submission: " ++ subject
    body :=
      "\n\t\t<html>\n\t\t<body>\n\t\t\t<h2>New Contact Form Submission</h2>\n\t\t\t<p><strong>Name:</strong> " ++
      (name ++
      ("</p>\n\t\t\t<p><strong>Email:</strong> " ++
      (email ++
      ("</p>\n\t\t\t<p><strong>Subject:</strong> " ++
      (subject ++
      ("</p>\n\t\t\t<p><strong>Message:</strong></p>\n\t\t\t<p>" ++
      (goReplaceAll message "\n" "<br>" ++
      "</p>\n\t\t</body>\n\t\t</html>\n\t"))))))) }

/-- The variant's `Sender.SendConfirmation` builder. -/
def Sender.SendConfirmation (s : Sender)
    (name email message : String) : MailMessage :=
  { toAddr := email
    subject := "Thank you for contacting us"
    body :=
      "\n\t\t<html>\n\t\t<body>\n\t\t\t<h2>Thank you for your message, " ++
      (name ++
      ("!</h2>\n\t\t\t<p>We have received your contact form submission and will get back to you as soon as possible.</p>\n\t\t\t<hr>\n\t\t\t<p><strong>Your message:</strong></p>\n\t\t\t<p>" ++
      (goReplaceAll message "\n" "<br>" ++
      "</p>\n\t\t\t<hr>\n\t\t\t<p>Best regards</p>\n\t\t</body>\n\t\t</html>\n\t"))) }

end SendMailImpl

/-! ### Body parsing

The handler decodes the request body with the Go standard library:
`encoding/json` for JSON bodies and `net/http.Request.ParseForm` /
`net/url.ParseQuery` for form bodies.  Those library functions are not part
of this repository; what follows are executable models of them for the data
this service handles: character-level (faithful for ASCII data), JSON
restricted to one flat object with string keys and values and the simple
escape sequences, and a request with no URL query string. -/

/-- Value of one hexadecimal digit, as in `net/url`'s `unhex`. -/
def hexDigitVal (c : Char) : Option Nat :=
  if '0' ≤ c ∧ c ≤ '9' then some (c.toNat - 48)
  else if 'a' ≤ c ∧ c ≤ 'f' then some (c.toNat - 87)
  else if 'A' ≤ c ∧ c ≤ 'F' then some (c.toNat - 55)
  else none

/-- Model of `net/url.QueryUnescape`: `+` becomes a space, `%XY` becomes the
character with code `16*X+Y`, a `%` not followed by two hex digits is an
error. -/
def queryUnescapeChars : List Char → Option (List Char)
  | [] => some []
  | c :: rest =>
    if c == '%' then
      match rest with
      | h1 :: h2 :: rest2 =>
        match hexDigitVal h1, hexDigitVal h2 with
        | some a, some b => (queryUnescapeChars rest2).map fun l => Char.ofNat (16 * a + b) :: l
        | _, _ => none
      | _ => none
    else if c == '+' then (queryUnescapeChars rest).map fun l => ' ' :: l
    else (queryUnescapeChars rest).map fun l => c :: l

/-- Split a character list on a separator (used for the `&` and `;` handling
of `net/url.ParseQuery` and the media-type cut at `;`). -/
def splitOnChar (sep : Char) : List Char → List (List Char)
  | [] => [[]]
  | c :: rest =>
    if c == sep then [] :: splitOnChar sep rest
    else
      match splitOnChar sep rest with
      | [] => [[c]]
      | seg :: segs => (c :: seg) :: segs

/-- Model of the per-segment loop of `net/url.ParseQuery`: a segment holding
`;` is an error, an empty segment is skipped, otherwise the segment is cut
at the first `=` and both halves are unescaped.  Go keeps scanning after an
error and returns the first error alongside the partial values; since the
handler discards the values whenever an error is returned, the model stops
at the first error. -/
def parseQuerySegs : List (List Char) → Except String (List (String × String))
  | [] => .ok []
  | seg :: rest =>
    if seg.contains ';' then .error "invalid semicolon separator in query"
    else if seg.isEmpty then parseQuerySegs rest
    else
      match queryUnescapeChars (seg.takeWhile fun c => c != '='),
            queryUnescapeChars ((seg.dropWhile fun c => c != '=').drop 1) with
      | some k, some v =>
        (parseQuerySegs rest).map fun ps => (String.mk k, String.mk v) :: ps
      | _, _ => .error "invalid URL escape"

/-- Model of `net/url.ParseQuery`. -/
def ParseQuery (query : String) : Except String (List (String × String)) :=
  parseQuerySegs (splitOnChar '&' query.toList)

/-- `url.Values.Get` / `http.Request.FormValue`: the first value stored for
the key, or the empty string. -/
def formValue (pairs : List (String × String)) (key : String) : String :=
  match pairs.find? (fun p => p.1 == key) with
  | some p => p.2
  | none => ""

/-- Whitespace as trimmed around a media type and skipped between JSON
tokens. -/
def isWsChar (c : Char) : Bool :=
  c == ' ' || c == '\t' || c == '\n' || c == '\r'

/-- The media type extracted by `mime.ParseMediaType`: the part before the
first `;`, trimmed and lowercased (parameter and error handling of the full
parser are not modelled). -/
def mediaTypeOf (ct : String) : String :=
  String.mk
    ((((((splitOnChar ';' ct.toList).headD []).dropWhile isWsChar).reverse.dropWhile
        isWsChar).reverse).map Char.toLower)

/-- Model of `http.Request.ParseForm` for a POST request whose URL carries no
query string: an absent Content-Type is treated as `application/octet-stream`
(RFC 7231 §3.1.1.5, as in `net/http.parsePostForm`), and only the media type
`application/x-www-form-urlencoded` causes the body to be parsed; any other
media type leaves the form empty without error. -/
def parsePostForm (contentType body : String) : Except String (List (String × String)) :=
  let ct := if contentType == "" then "application/octet-stream" else contentType
  if mediaTypeOf ct == "application/x-www-form-urlencoded" then ParseQuery body
  else .ok []

/-- The simple JSON escape sequences (the `\uXXXX` form is not modelled). -/
def jsonEsc : Char → Option Char
  | 'n' => some '\n'
  | 't' => some '\t'
  | 'r' => some '\r'
  | 'b' => some (Char.ofNat 8)
  | 'f' => some (Char.ofNat 12)
  | '"' => some '"'
  | '\\' => some '\\'
  | '/' => some '/'
  | _ => none

/-- Parse the remainder of a JSON string (the opening quote already
consumed): the decoded characters and the rest of the input. -/
def jsonString : List Char → Option (List Char × List Char)
  | [] => none
  | c :: rest =>
    if c == '"' then some ([], rest)
    else if c == '\\' then
      match rest with
      | [] => none
      | e :: rest2 =>
        match jsonEsc e, jsonString rest2 with
        | some d, some p => some (d :: p.1, p.2)
        | _, _ => none
    else (jsonString rest).map fun p => (c :: p.1, p.2)

/-- Parse the members of a flat JSON object (after the opening brace, at
least one member present): a list of key/value pairs in source order and the
input after the closing brace.  Fuel decreases once per member; the input
length is enough fuel since every member consumes at least one character. -/
def jsonPairs : Nat → List Char → Option (List (String × String) × List Char)
  | 0, _ => none
  | fuel + 1, l =>
    match l.dropWhile isWsChar with
    | [] => none
    | c :: rest =>
      if c == '"' then
        match jsonString rest with
        | none => none
        | some (k, rest2) =>
          match rest2.dropWhile isWsChar with
          | [] => none
          | c3 :: rest3 =>
            if c3 == ':' then
              match rest3.dropWhile isWsChar with
              | [] => none
              | c4 :: rest4 =>
                if c4 == '"' then
                  match jsonString rest4 with
                  | none => none
                  | some (v, rest5) =>
                    match rest5.dropWhile isWsChar with
                    | [] => none
                    | c6 :: rest6 =>
                      if c6 == ',' then
                        (jsonPairs fuel rest6).map fun p =>
                          ((String.mk k, String.mk v) :: p.1, p.2)
                      else if c6 == '}' then
                        some ([(String.mk k, String.mk v)], rest6)
                      else none
                else none
            else none
      else none

/-- The submission value decoded from the request body
(`ContactForm` in contact.go, with the JSON tags name/email/subject/message). -/
structure ContactForm where
  name : String
  email : String
  subject : String
  message : String
  deriving DecidableEq, Repr

/-- Assignment of one decoded JSON member into the `ContactForm` struct, by
its JSON tag; unknown keys are ignored and a later duplicate overwrites. -/
def applyJsonPair (f : ContactForm) : String × String → ContactForm
  | (k, v) =>
    if k == "name" then { f with name := v }
    else if k == "email" then { f with email := v }
    else if k == "subject" then { f with subject := v }
    else if k == "message" then { f with message := v }
    else f

/-- Model of `json.NewDecoder(r.Body).Decode(&form)` for a body whose first
value is a flat object with string keys and values: leading whitespace is
skipped, members fill the struct fields by tag, data after the closing brace
is not read (as with `Decoder.Decode`), and anything else is a decode
error. -/
def jsonDecodeContactForm (body : String) : Except String ContactForm :=
  match body.toList.dropWhile isWsChar with
  | [] => .error "invalid JSON value"
  | c :: rest =>
    if c == '{' then
      match rest.dropWhile isWsChar with
      | [] => .error "invalid JSON value"
      | c2 :: _ =>
        if c2 == '}' then .ok { name := "", email := "", subject := "", message := "" }
        else
          match jsonPairs rest.length rest with
          | some (pairs, _) =>
            .ok (pairs.foldl applyJsonPair
              { name := "", email := "", subject := "", message := "" })
          | none => .error "invalid JSON value"
    else .error "invalid JSON value"

/-! ### Encoders witnessing payloads expressible in both encodings

For the relational claim that the JSON path and the form path parse payloads
to the same fields, a payload is rendered in both encodings: URL-encoding
follows Go's `url.QueryEscape` (space to `+`, unreserved characters kept,
anything else percent-encoded), and the JSON rendering is one flat object
with the four keys and the simple escape sequences.  Character-level
encoding is exact for ASCII payloads; `plainChar` carves out that
fragment. -/

/-- ASCII characters that are printable or one of tab, newline, carriage
return — the fragment on which the character-level encoders and parsers
coincide with Go's byte-level ones. -/
def plainChar (c : Char) : Bool :=
  c.toNat < 128 && (32 ≤ c.toNat || c == '\n' || c == '\t' || c == '\r')

/-- Every character of the string is plain. -/
def plainString (s : String) : Bool :=
  s.toList.all plainChar

/-- Every field of the form is plain ASCII. -/
def plainForm (f : ContactForm) : Bool :=
  plainString f.name && plainString f.email && plainString f.subject && plainString f.message

/-- Uppercase hexadecimal digit, as in `net/url`'s escaping. -/
def toHexUpper (n : Nat) : Char :=
  if n < 10 then Char.ofNat (48 + n) else Char.ofNat (55 + n)

/-- One character of Go `url.QueryEscape`: alphanumerics and `-_.~` are
kept, space becomes `+`, anything else becomes `%XY`. -/
def queryEscapeChar (c : Char) : List Char :=
  if c.isAlphanum || c == '-' || c == '_' || c == '.' || c == '~' then [c]
  else if c == ' ' then ['+']
  else ['%', toHexUpper (c.toNat / 16), toHexUpper (c.toNat % 16)]

/-- Go `url.QueryEscape` over a character list. -/
def escList : List Char → List Char
  | [] => []
  | c :: cs => queryEscapeChar c ++ escList cs

/-- The four fields rendered as a URL-encoded form body. -/
def formEncodeChars (f : ContactForm) : List Char :=
  ("name".toList ++ '=' :: escList f.name.toList) ++ '&' ::
  (("email".toList ++ '=' :: escList f.email.toList) ++ '&' ::
  (("subject".toList ++ '=' :: escList f.subject.toList) ++ '&' ::
  ("message".toList ++ '=' :: escList f.message.toList)))

/-- The form-encoded rendering of a submission. -/
def formEncode (f : ContactForm) : String :=
  String.mk (formEncodeChars f)

/-- One character under JSON string escaping (quote, backslash and the
whitespace controls; all other plain characters stand for themselves). -/
def jsonEscapeChar (c : Char) : List Char :=
  if c == '"' then ['\\', '"']
  else if c == '\\' then ['\\', '\\']
  else if c == '\n' then ['\\', 'n']
  else if c == '\t' then ['\\', 't']
  else if c == '\r' then ['\\', 'r']
  else [c]

/-- JSON string escaping over a character list. -/
def jsonEscList : List Char → List Char
  | [] => []
  | c :: cs => jsonEscapeChar c ++ jsonEscList cs

/-- One `"key":"value"` member followed by `rest`. -/
def keyval (k v : String) (rest : List Char) : List Char :=
  '"' :: (jsonEscList k.toList ++ '"' :: ':' :: '"' :: (jsonEscList v.toList ++ '"' :: rest))

/-- The four fields rendered as a flat JSON object. -/
def jsonEncodeChars (f : ContactForm) : List Char :=
  '{' :: keyval "name" f.name (',' ::
    keyval "email" f.email (',' ::
      keyval "subject" f.subject (',' ::
        keyval "message" f.message ['}'])))

/-- The JSON rendering of a submission. -/
def jsonEncode (f : ContactForm) : String :=
  String.mk (jsonEncodeChars f)

/-! ### The HTTP handler (`src/internal/handler/contact.go`) -/

/-- The data of one inbound HTTP request that the handler inspects: method,
the Content-Type header (empty when absent) and the raw body.  The request
URL carries no query string (the service is mounted at `/contact`). -/
structure Request where
  method : String
  contentType : String
  body : String
  deriving DecidableEq, Repr

/-- The response body as produced by the handler: empty (preflight), the
message handed to `http.Error` (which the transport sends as a single
plain-text line), or the key/value map handed to the JSON encoder (byte
serialization by `encoding/json` left abstract). -/
inductive RespBody where
  | empty : RespBody
  | text : String → RespBody
  | jsonMap : List (String × String) → RespBody
  deriving DecidableEq, Repr

/-- The HTTP response: status code and headers in the order they are set. -/
structure Response where
  status : Nat
  headers : List (String × String)
  body : RespBody
  deriving DecidableEq, Repr

/-- One SMTP dispatch attempt recorded by the handler, in program order. -/
inductive Dispatch where
  | notification : MailMessage → Dispatch
  | confirmation : MailMessage → Dispatch
  deriving DecidableEq, Repr

/-- Outcome of the two possible dispatch attempts, decided by the external
mail server: `none` is success, `some e` is the error `e`. -/
structure SmtpOutcome where
  notifyErr : Option String
  confirmErr : Option String
  deriving DecidableEq, Repr

/-- `handler.ContactHandler` from contact.go. -/
structure ContactHandler where
  emailSender : Sender
  corsOrigin : String
  deriving DecidableEq, Repr

/-- `handler.NewContactHandler` from contact.go. -/
def NewContactHandler (emailSender : Sender) (corsOrigin : String) : ContactHandler :=
  { emailSender := emailSender, corsOrigin := corsOrigin }

/-- The three CORS headers set unconditionally at the top of `ServeHTTP`. -/
def corsHeaders (h : ContactHandler) : List (String × String) :=
  [("Access-Control-Allow-Origin", h.corsOrigin),
   ("Access-Control-Allow-Methods", "POST, OPTIONS"),
   ("Access-Control-Allow-Headers", "Content-Type")]

/-- Model of `http.Error(w, msg, code)`: the error helper sets a plain-text
Content-Type and the nosniff header before writing the status and the
message line. -/
def httpError (hs : List (String × String)) (msg : String) (code : Nat) : Response :=
  { status := code
    headers := hs ++
      [("Content-Type", "text/plain; charset=utf-8"),
       ("X-Content-Type-Options", "nosniff")]
    body := .text msg }

/-- The body-parsing section of `ServeHTTP` (contact.go lines 50–69): the
JSON decoder is used exactly when the Content-Type header contains
`application/json`, otherwise `ParseForm` runs and the four fields are read
with `FormValue`.  The error value is the message passed to `http.Error` in
the corresponding branch. -/
def parseContactForm (r : Request) : Except String ContactForm :=
  if goContains r.contentType "application/json" then
    match jsonDecodeContactForm r.body with
    | .ok f => .ok f
    | .error _ => .error "Invalid JSON format"
  else
    match parsePostForm r.contentType r.body with
    | .ok pairs =>
      .ok { name := formValue pairs "name"
            email := formValue pairs "email"
            subject := formValue pairs "subject"
            message := formValue pairs "message" }
    | .error _ => .error "Failed to parse form"

/-- `ContactHandler.ServeHTTP` from contact.go, as a function from the
request and the mail server's behaviour to the response and the list of
dispatch attempts in program order. -/
def ContactHandler.ServeHTTP (h : ContactHandler) (r : Request)
    (smtp : SmtpOutcome) : Response × List Dispatch :=
  let hs := corsHeaders h
  if r.method == "OPTIONS" then
    ({ status := 200, headers := hs, body := .empty }, [])
  else if r.method != "POST" then
    (httpError hs "Method not allowed" 405, [])
  else
    match parseContactForm r with
    | .error msg => (httpError hs msg 400, [])
    | .ok form =>
      if form.name == "" || form.email == "" || form.message == "" then
        (httpError hs "Name, email, and message are required" 400, [])
      else
        let notif := h.emailSender.SendContactNotification
          form.name form.email form.subject form.message
        match smtp.notifyErr with
        | some _ =>
          (httpError hs "Failed to send email" 500, [.notification notif])
        | none =>
          let conf := h.emailSender.SendConfirmation form.name form.email form.message
          ({ status := 200
             headers := hs ++ [("Content-Type", "application/json")]
             body := .jsonMap
               [("status", "success"),
                ("message", "Your message has been sent successfully")] },
           [.notification notif, .confirmation conf])

/-! ### Dispatch trace predicates and substring occurrence -/

/-- Is a recorded dispatch the owner notification? -/
def Dispatch.isNotify : Dispatch → Bool
  | .notification _ => true
  | .confirmation _ => false

/-- Is a recorded dispatch the submitter confirmation? -/
def Dispatch.isConfirm : Dispatch → Bool
  | .confirmation _ => true
  | .notification _ => false

/-- `sub` occurs contiguously inside `s`. -/
def OccursIn (sub s : String) : Prop :=
  ∃ l r, s = l ++ (sub ++ r)

/-- The 200 success response of `ServeHTTP`. -/
def successResponse (h : ContactHandler) : Response :=
  { status := 200
    headers := corsHeaders h ++ [("Content-Type", "application/json")]
    body := .jsonMap
      [("status", "success"),
       ("message", "Your message has been sent successfully")] }

/-! ### Test fixtures used by the witnesses -/

/-- A concrete environment with the three required variables set and
FROM_EMAIL unset. -/
def testEnv : String → String := fun k =>
  if k == "SMTP_USER" then "user@example.com"
  else if k == "SMTP_PASSWORD" then "app-password"
  else if k == "RECIPIENT_EMAIL" then "owner@example.com"
  else if k == "FROM_EMAIL" then "from@example.com"
  else ""

/-- The configuration loaded from `testEnv`. -/
def testConfig : Config := Config.Load testEnv

/-- A concrete environment with the three required variables set but
FROM_EMAIL unset. -/
def noFromEnv : String → String := fun k =>
  if k == "SMTP_USER" then "user@example.com"
  else if k == "SMTP_PASSWORD" then "app-password"
  else if k == "RECIPIENT_EMAIL" then "owner@example.com"
  else ""

/-- A handler wired like `main` does, with CORS origin `*`. -/
def testHandler : ContactHandler := NewContactHandler (NewSender testConfig) "*"

/-- The JSON example request of the specification. -/
def adaJsonRequest : Request :=
  { method := "POST"
    contentType := "application/json"
    body := "\x7b\"name\":\"Ada\",\"email\":\"ada@example.com\",\"subject\":\"Hi\",\"message\":\"Hello\\nWorld\"\x7d" }

/-- The parsed fields of the JSON example request. -/
def adaForm : ContactForm :=
  { name := "Ada", email := "ada@example.com", subject := "Hi", message := "Hello\nWorld" }

/-- The payload of the specification's form-encoded example
`name=Ada&email=ada%40example.com&subject=Hi&message=Hello`. -/
def adaSimpleForm : ContactForm :=
  { name := "Ada", email := "ada@example.com", subject := "Hi", message := "Hello" }

/-! ### Shape lemmas for `ServeHTTP` -/

theorem serveHTTP_parse_err (h : ContactHandler) (r : Request) (smtp : SmtpOutcome)
    (msg : String) (hm : r.method = "POST") (hp : parseContactForm r = .error msg) :
    h.ServeHTTP r smtp = (httpError (corsHeaders h) msg 400, []) := by
  unfold ContactHandler.ServeHTTP
  rw [hm, hp]
  rfl

theorem serveHTTP_invalid_field (h : ContactHandler) (r : Request) (smtp : SmtpOutcome)
    (f : ContactForm) (hm : r.method = "POST") (hp : parseContactForm r = .ok f)
    (hv : (f.name == "" || f.email == "" || f.message == "") = true) :
    h.ServeHTTP r smtp =
      (httpError (corsHeaders h) "Name, email, and message are required" 400, []) := by
  unfold ContactHandler.ServeHTTP
  rw [hm, hp]
  simp [hv]

theorem serveHTTP_notify_fail (h : ContactHandler) (r : Request) (smtp : SmtpOutcome)
    (f : ContactForm) (e : String) (hm : r.method = "POST")
    (hp : parseContactForm r = .ok f)
    (hn : f.name ≠ "") (he : f.email ≠ "") (hg : f.message ≠ "")
    (herr : smtp.notifyErr = some e) :
    h.ServeHTTP r smtp =
      (httpError (corsHeaders h) "Failed to send email" 500,
       [.notification (h.emailSender.SendContactNotification f.name f.email f.subject f.message)]) := by
  unfold ContactHandler.ServeHTTP
  rw [hm, hp, herr]
  simp [beq_eq_false_iff_ne.mpr hn, beq_eq_false_iff_ne.mpr he, beq_eq_false_iff_ne.mpr hg]

theorem serveHTTP_notify_ok (h : ContactHandler) (r : Request) (smtp : SmtpOutcome)
    (f : ContactForm) (hm : r.method = "POST")
    (hp : parseContactForm r = .ok f)
    (hn : f.name ≠ "") (he : f.email ≠ "") (hg : f.message ≠ "")
    (herr : smtp.notifyErr = none) :
    h.ServeHTTP r smtp =
      (successResponse h,
       [.notification (h.emailSender.SendContactNotification f.name f.email f.subject f.message),
        .confirmation (h.emailSender.SendConfirmation f.name f.email f.message)]) := by
  unfold ContactHandler.ServeHTTP
  rw [hm, hp, herr]
  simp [beq_eq_false_iff_ne.mpr hn, beq_eq_false_iff_ne.mpr he, beq_eq_false_iff_ne.mpr hg,
    successResponse]

/-! ### Claims -/

/-- C1: for every POST request whose parsed name, email and message are
non-empty, if the notification dispatch returns an error then the response
is status 500 with body "Failed to send email" and the confirmation
dispatch is never invoked for that request. -/
theorem C1_notify_failure_terminal (h : ContactHandler) (r : Request)
    (smtp : SmtpOutcome) (f : ContactForm) (e : String)
    (hm : r.method = "POST") (hp : parseContactForm r = .ok f)
    (hn : f.name ≠ "") (he : f.email ≠ "") (hg : f.message ≠ "")
    (herr : smtp.notifyErr = some e) :
    (h.ServeHTTP r smtp).1.status = 500 ∧
    (h.ServeHTTP r smtp).1.body = RespBody.text "Failed to send email" ∧
    ∀ m : MailMessage, Dispatch.confirmation m ∉ (h.ServeHTTP r smtp).2 := by
  rw [serveHTTP_notify_fail h r smtp f e hm hp hn he hg herr]
  refine ⟨rfl, rfl, fun m hmem => ?_⟩
  simp [httpError] at hmem

/-- C1 witness: the Ada request with a failing mail server. -/
theorem C1_witness :
    (testHandler.ServeHTTP adaJsonRequest ⟨some "boom", none⟩).1.status = 500 ∧
    (testHandler.ServeHTTP adaJsonRequest ⟨some "boom", none⟩).1.body =
      RespBody.text "Failed to send email" ∧
    ∀ m : MailMessage,
      Dispatch.confirmation m ∉ (testHandler.ServeHTTP adaJsonRequest ⟨some "boom", none⟩).2 :=
  C1_notify_failure_terminal testHandler adaJsonRequest ⟨some "boom", none⟩ adaForm "boom"
    rfl rfl (by decide) (by decide) (by decide) rfl

/-- C2: for every POST request with non-empty name, email and message, if the
notification dispatch succeeds and the confirmation dispatch fails, the
response is still 200 with the success JSON body. -/
theorem C2_confirmation_failure_ignored (h : ContactHandler) (r : Request)
    (smtp : SmtpOutcome) (f : ContactForm) (e : String)
    (hm : r.method = "POST") (hp : parseContactForm r = .ok f)
    (hn : f.name ≠ "") (he : f.email ≠ "") (hg : f.message ≠ "")
    (hok : smtp.notifyErr = none) (hce : smtp.confirmErr = some e) :
    (h.ServeHTTP r smtp).1.status = 200 ∧
    (h.ServeHTTP r smtp).1.body =
      RespBody.jsonMap
        [("status", "success"), ("message", "Your message has been sent successfully")] := by
  rw [serveHTTP_notify_ok h r smtp f hm hp hn he hg hok]
  exact ⟨rfl, rfl⟩

/-- C2 witness: the Ada request with a failing confirmation dispatch. -/
theorem C2_witness :
    (testHandler.ServeHTTP adaJsonRequest ⟨none, some "bounce"⟩).1.status = 200 ∧
    (testHandler.ServeHTTP adaJsonRequest ⟨none, some "bounce"⟩).1.body =
      RespBody.jsonMap
        [("status", "success"), ("message", "Your message has been sent successfully")] :=
  C2_confirmation_failure_ignored testHandler adaJsonRequest ⟨none, some "bounce"⟩ adaForm
    "bounce" rfl rfl (by decide) (by decide) (by decide) rfl rfl

/-- C3: for every valid submission, exactly one notification dispatch and at
most one confirmation attempt occur, the notification comes first, and the
confirmation attempt occurs exactly when the notification succeeded. -/
theorem C3_dispatch_sequence (h : ContactHandler) (r : Request)
    (smtp : SmtpOutcome) (f : ContactForm)
    (hm : r.method = "POST") (hp : parseContactForm r = .ok f)
    (hn : f.name ≠ "") (he : f.email ≠ "") (hg : f.message ≠ "") :
    ((h.ServeHTTP r smtp).2.countP Dispatch.isNotify = 1) ∧
    ((h.ServeHTTP r smtp).2.countP Dispatch.isConfirm ≤ 1) ∧
    (∃ n, (h.ServeHTTP r smtp).2 = [Dispatch.notification n] ∨
      ∃ c, (h.ServeHTTP r smtp).2 = [Dispatch.notification n, Dispatch.confirmation c]) ∧
    ((∃ c, Dispatch.confirmation c ∈ (h.ServeHTTP r smtp).2) ↔ smtp.notifyErr = none) := by
  cases herr : smtp.notifyErr with
  | none =>
    rw [serveHTTP_notify_ok h r smtp f hm hp hn he hg herr]
    refine ⟨rfl, by simp [List.countP, List.countP.go, Dispatch.isNotify, Dispatch.isConfirm],
      ⟨_, Or.inr ⟨_, rfl⟩⟩, ?_⟩
    simp
  | some e =>
    rw [serveHTTP_notify_fail h r smtp f e hm hp hn he hg herr]
    refine ⟨rfl, by simp [List.countP, List.countP.go, Dispatch.isNotify, Dispatch.isConfirm],
      ⟨_, Or.inl rfl⟩, ?_⟩
    simp

/-- C3 witness: the Ada request with a working mail server. -/
theorem C3_witness :
    ((testHandler.ServeHTTP adaJsonRequest ⟨none, none⟩).2.countP Dispatch.isNotify = 1) ∧
    ((testHandler.ServeHTTP adaJsonRequest ⟨none, none⟩).2.countP Dispatch.isConfirm ≤ 1) ∧
    (∃ n, (testHandler.ServeHTTP adaJsonRequest ⟨none, none⟩).2 = [Dispatch.notification n] ∨
      ∃ c, (testHandler.ServeHTTP adaJsonRequest ⟨none, none⟩).2 =
        [Dispatch.notification n, Dispatch.confirmation c]) ∧
    ((∃ c, Dispatch.confirmation c ∈ (testHandler.ServeHTTP adaJsonRequest ⟨none, none⟩).2) ↔
      (SmtpOutcome.mk none none).notifyErr = none) :=
  C3_dispatch_sequence testHandler adaJsonRequest ⟨none, none⟩ adaForm
    rfl rfl (by decide) (by decide) (by decide)

/-- C4: for every POST request whose body parses, an empty parsed name,
email or message yields 400 with body "Name, email, and message are
required" and no dispatch; and only the empty-string check is applied, so
whenever all three are non-empty (whitespace included) a dispatch occurs. -/
theorem C4_validation_empty_only (h : ContactHandler) (r : Request)
    (smtp : SmtpOutcome) (f : ContactForm)
    (hm : r.method = "POST") (hp : parseContactForm r = .ok f) :
    (f.name = "" ∨ f.email = "" ∨ f.message = "" →
      (h.ServeHTTP r smtp).1.status = 400 ∧
      (h.ServeHTTP r smtp).1.body = RespBody.text "Name, email, and message are required" ∧
      (h.ServeHTTP r smtp).2 = []) ∧
    (f.name ≠ "" → f.email ≠ "" → f.message ≠ "" →
      (h.ServeHTTP r smtp).2 ≠ []) := by
  constructor
  · intro hv
    have hb : (f.name == "" || f.email == "" || f.message == "") = true := by
      rcases hv with hv | hv | hv <;> simp [hv]
    rw [serveHTTP_invalid_field h r smtp f hm hp hb]
    exact ⟨rfl, rfl, rfl⟩
  · intro hn he hg
    cases herr : smtp.notifyErr with
    | none => rw [serveHTTP_notify_ok h r smtp f hm hp hn he hg herr]; simp
    | some e => rw [serveHTTP_notify_fail h r smtp f e hm hp hn he hg herr]; simp

/-- C4 witness: a form body with an empty message is rejected, and a
whitespace-only name, email and message pass validation. -/
theorem C4_witness :
    ((adaForm.name = "" ∨ adaForm.email = "" ∨ adaForm.message = "" →
      (testHandler.ServeHTTP adaJsonRequest ⟨none, none⟩).1.status = 400 ∧
      (testHandler.ServeHTTP adaJsonRequest ⟨none, none⟩).1.body =
        RespBody.text "Name, email, and message are required" ∧
      (testHandler.ServeHTTP adaJsonRequest ⟨none, none⟩).2 = []) ∧
    (adaForm.name ≠ "" → adaForm.email ≠ "" → adaForm.message ≠ "" →
      (testHandler.ServeHTTP adaJsonRequest ⟨none, none⟩).2 ≠ [])) ∧
    (testHandler.ServeHTTP
      { method := "POST", contentType := "application/x-www-form-urlencoded",
        body := "name=+&email=+&message=+" } ⟨none, none⟩).2 ≠ [] ∧
    (testHandler.ServeHTTP
      { method := "POST", contentType := "application/x-www-form-urlencoded",
        body := "name=Ada&email=a%40b.c" } ⟨none, none⟩).1.status = 400 ∧
    (testHandler.ServeHTTP
      { method := "POST", contentType := "application/x-www-form-urlencoded",
        body := "name=Ada&email=a%40b.c" } ⟨none, none⟩).1.body =
      RespBody.text "Name, email, and message are required" :=
  ⟨C4_validation_empty_only testHandler adaJsonRequest ⟨none, none⟩ adaForm rfl rfl,
   (C4_validation_empty_only testHandler
      { method := "POST", contentType := "application/x-www-form-urlencoded",
        body := "name=+&email=+&message=+" } ⟨none, none⟩
      { name := " ", email := " ", subject := "", message := " " } rfl (by rfl)).2
     (by decide) (by decide) (by decide),
   ((C4_validation_empty_only testHandler
      { method := "POST", contentType := "application/x-www-form-urlencoded",
        body := "name=Ada&email=a%40b.c" } ⟨none, none⟩
      { name := "Ada", email := "a@b.c", subject := "", message := "" } rfl (by rfl)).1
     (Or.inr (Or.inr rfl))).1,
   ((C4_validation_empty_only testHandler
      { method := "POST", contentType := "application/x-www-form-urlencoded",
        body := "name=Ada&email=a%40b.c" } ⟨none, none⟩
      { name := "Ada", email := "a@b.c", subject := "", message := "" } rfl (by rfl)).1
     (Or.inr (Or.inr rfl))).2.1⟩

/-- The submitted name occurs in the notification body. -/
theorem notification_body_has_name (s : Sender) (n e subj m : String) :
    OccursIn n (s.SendContactNotification n e subj m).body :=
  ⟨_, _, rfl⟩

/-- The submitted email occurs in the notification body. -/
theorem notification_body_has_email (s : Sender) (n e subj m : String) :
    OccursIn e (s.SendContactNotification n e subj m).body := by
  refine
    ⟨"\n\t\t<html>\n\t\t<body>\n\t\t\t<h2>New Contact Form Submission</h2>\n\t\t\t<p><strong>Name:</strong> " ++
      (n ++ "</p>\n\t\t\t<p><strong>Email:</strong> "),
     "</p>\n\t\t\t<p><strong>Subject:</strong> " ++
      (subj ++
        ("</p>\n\t\t\t<p><strong>Message:</strong></p>\n\t\t\t<p>" ++
          (goReplaceAll m "\n" "<br>" ++ "</p>\n\t\t</body>\n\t\t</html>\n\t"))), ?_⟩
  simp [Sender.SendContactNotification, String.append_assoc]

/-- The submitted subject occurs in the notification body. -/
theorem notification_body_has_subject (s : Sender) (n e subj m : String) :
    OccursIn subj (s.SendContactNotification n e subj m).body := by
  refine
    ⟨"\n\t\t<html>\n\t\t<body>\n\t\t\t<h2>New Contact Form Submission</h2>\n\t\t\t<p><strong>Name:</strong> " ++
      (n ++
        ("</p>\n\t\t\t<p><strong>Email:</strong> " ++
          (e ++ "</p>\n\t\t\t<p><strong>Subject:</strong> "))),
     "</p>\n\t\t\t<p><strong>Message:</strong></p>\n\t\t\t<p>" ++
      (goReplaceAll m "\n" "<br>" ++ "</p>\n\t\t</body>\n\t\t</html>\n\t"), ?_⟩
  simp [Sender.SendContactNotification, String.append_assoc]

/-- The message with newlines replaced by line breaks occurs in the
notification body. -/
theorem notification_body_has_message (s : Sender) (n e subj m : String) :
    OccursIn (goReplaceAll m "\n" "<br>") (s.SendContactNotification n e subj m).body := by
  refine
    ⟨"\n\t\t<html>\n\t\t<body>\n\t\t\t<h2>New Contact Form Submission</h2>\n\t\t\t<p><strong>Name:</strong> " ++
      (n ++
        ("</p>\n\t\t\t<p><strong>Email:</strong> " ++
          (e ++
            ("</p>\n\t\t\t<p><strong>Subject:</strong> " ++
              (subj ++ "</p>\n\t\t\t<p><strong>Message:</strong></p>\n\t\t\t<p>"))))),
     "</p>\n\t\t</body>\n\t\t</html>\n\t", ?_⟩
  simp [Sender.SendContactNotification, String.append_assoc]

/-- C5: for every valid submission with a working notification dispatch, the
notification mail goes to the configured fixed recipient, its subject is
"New Contact Form Submission: " followed by the submitted subject, its body
contains the name, email, subject and the message with every newline
replaced by a line break, and the response is 200 with the success JSON
body. -/
theorem C5_notification_content (h : ContactHandler) (r : Request)
    (smtp : SmtpOutcome) (f : ContactForm)
    (hm : r.method = "POST") (hp : parseContactForm r = .ok f)
    (hn : f.name ≠ "") (he : f.email ≠ "") (hg : f.message ≠ "")
    (hok : smtp.notifyErr = none) :
    ∃ note conf,
      (h.ServeHTTP r smtp).2 = [Dispatch.notification note, Dispatch.confirmation conf] ∧
      note.toAddr = h.emailSender.config.RecipientEmail ∧
      note.subject = "New Contact Form Submission: " ++ f.subject ∧
      OccursIn f.name note.body ∧
      OccursIn f.email note.body ∧
      OccursIn f.subject note.body ∧
      OccursIn (goReplaceAll f.message "\n" "<br>") note.body ∧
      (h.ServeHTTP r smtp).1.status = 200 ∧
      (h.ServeHTTP r smtp).1.body =
        RespBody.jsonMap
          [("status", "success"), ("message", "Your message has been sent successfully")] := by
  rw [serveHTTP_notify_ok h r smtp f hm hp hn he hg hok]
  exact ⟨_, _, rfl, rfl, rfl,
    notification_body_has_name _ _ _ _ _,
    notification_body_has_email _ _ _ _ _,
    notification_body_has_subject _ _ _ _ _,
    notification_body_has_message _ _ _ _ _, rfl, rfl⟩

/-- C5 witness: the Ada request of the specification; its notification body
contains the replaced message, and the fixed recipient differs from the
submitter's address. -/
theorem C5_witness :
    (∃ note conf,
      (testHandler.ServeHTTP adaJsonRequest ⟨none, none⟩).2 =
        [Dispatch.notification note, Dispatch.confirmation conf] ∧
      note.toAddr = testHandler.emailSender.config.RecipientEmail ∧
      note.subject = "New Contact Form Submission: " ++ adaForm.subject ∧
      OccursIn adaForm.name note.body ∧
      OccursIn adaForm.email note.body ∧
      OccursIn adaForm.subject note.body ∧
      OccursIn (goReplaceAll adaForm.message "\n" "<br>") note.body ∧
      (testHandler.ServeHTTP adaJsonRequest ⟨none, none⟩).1.status = 200 ∧
      (testHandler.ServeHTTP adaJsonRequest ⟨none, none⟩).1.body =
        RespBody.jsonMap
          [("status", "success"), ("message", "Your message has been sent successfully")]) ∧
    goReplaceAll adaForm.message "\n" "<br>" = "Hello<br>World" ∧
    testHandler.emailSender.config.RecipientEmail = "owner@example.com" ∧
    adaForm.email = "ada@example.com" :=
  ⟨C5_notification_content testHandler adaJsonRequest ⟨none, none⟩ adaForm
     rfl rfl (by decide) (by decide) (by decide) rfl,
   by rfl, by rfl, by rfl⟩

/-- C6: for every POST request the body is decoded as JSON exactly when the
Content-Type header contains "application/json" (anything else takes the
form path); a JSON decode failure yields 400 "Invalid JSON format", a
form-parse failure yields 400 "Failed to parse form", and in both failure
cases no dispatch occurs. -/
theorem C6_content_type_branching (h : ContactHandler) (r : Request)
    (smtp : SmtpOutcome) (hm : r.method = "POST") :
    (goContains r.contentType "application/json" = true →
      (∀ f, jsonDecodeContactForm r.body = .ok f → parseContactForm r = .ok f) ∧
      (∀ e, jsonDecodeContactForm r.body = .error e →
        (h.ServeHTTP r smtp).1.status = 400 ∧
        (h.ServeHTTP r smtp).1.body = RespBody.text "Invalid JSON format" ∧
        (h.ServeHTTP r smtp).2 = [])) ∧
    (goContains r.contentType "application/json" = false →
      (∀ ps, parsePostForm r.contentType r.body = .ok ps →
        parseContactForm r = .ok
          { name := formValue ps "name", email := formValue ps "email",
            subject := formValue ps "subject", message := formValue ps "message" }) ∧
      (∀ e, parsePostForm r.contentType r.body = .error e →
        (h.ServeHTTP r smtp).1.status = 400 ∧
        (h.ServeHTTP r smtp).1.body = RespBody.text "Failed to parse form" ∧
        (h.ServeHTTP r smtp).2 = [])) := by
  constructor
  · intro hc
    constructor
    · intro f hj
      simp [parseContactForm, hc, hj]
    · intro e hj
      have hperr : parseContactForm r = .error "Invalid JSON format" := by
        simp [parseContactForm, hc, hj]
      rw [serveHTTP_parse_err h r smtp _ hm hperr]
      exact ⟨rfl, rfl, rfl⟩
  · intro hc
    constructor
    · intro ps hq
      simp [parseContactForm, hc, hq]
    · intro e hq
      have hperr : parseContactForm r = .error "Failed to parse form" := by
        simp [parseContactForm, hc, hq]
      rw [serveHTTP_parse_err h r smtp _ hm hperr]
      exact ⟨rfl, rfl, rfl⟩

/-- C6 witness: a malformed JSON body and a malformed form body, each
rejected with its message and no dispatch. -/
theorem C6_witness :
    ((testHandler.ServeHTTP
        { method := "POST", contentType := "application/json", body := "notjson" }
        ⟨none, none⟩).1.status = 400 ∧
      (testHandler.ServeHTTP
        { method := "POST", contentType := "application/json", body := "notjson" }
        ⟨none, none⟩).1.body = RespBody.text "Invalid JSON format" ∧
      (testHandler.ServeHTTP
        { method := "POST", contentType := "application/json", body := "notjson" }
        ⟨none, none⟩).2 = []) ∧
    ((testHandler.ServeHTTP
        { method := "POST", contentType := "application/x-www-form-urlencoded",
          body := "name=%zz" } ⟨none, none⟩).1.status = 400 ∧
      (testHandler.ServeHTTP
        { method := "POST", contentType := "application/x-www-form-urlencoded",
          body := "name=%zz" } ⟨none, none⟩).1.body = RespBody.text "Failed to parse form" ∧
      (testHandler.ServeHTTP
        { method := "POST", contentType := "application/x-www-form-urlencoded",
          body := "name=%zz" } ⟨none, none⟩).2 = []) :=
  ⟨((C6_content_type_branching testHandler
      { method := "POST", contentType := "application/json", body := "notjson" }
      ⟨none, none⟩ rfl).1 (by rfl)).2 "invalid JSON value" (by rfl),
   ((C6_content_type_branching testHandler
      { method := "POST", contentType := "application/x-www-form-urlencoded",
        body := "name=%zz" } ⟨none, none⟩ rfl).2 (by rfl)).2 "invalid URL escape" (by rfl)⟩

/-- C7: on every invocation, for every method and every outcome branch, the
first three response headers set are the configured allow-origin,
allow-methods "POST, OPTIONS" and allow-headers "Content-Type". -/
theorem C7_cors_headers_always (h : ContactHandler) (r : Request) (smtp : SmtpOutcome) :
    (h.ServeHTTP r smtp).1.headers.take 3 =
      [("Access-Control-Allow-Origin", h.corsOrigin),
       ("Access-Control-Allow-Methods", "POST, OPTIONS"),
       ("Access-Control-Allow-Headers", "Content-Type")] := by
  unfold ContactHandler.ServeHTTP corsHeaders httpError
  repeat' first | rfl | split

/-- C9: the manual-session sender of sender.go and the `smtp.SendMail` based
sender compose, for every input and the same configuration, the same message
bytes and the same envelope, and their notification and confirmation
builders produce identical recipients, subjects and bodies. -/
theorem C9_sender_implementations_agree (cfg : Config)
    (toAddr subject body name email message : String) :
    Sender.Send (NewSender cfg) toAddr subject body =
      SendMailImpl.Sender.Send (SendMailImpl.NewSender cfg) toAddr subject body ∧
    Sender.SendContactNotification (NewSender cfg) name email subject message =
      SendMailImpl.Sender.SendContactNotification (SendMailImpl.NewSender cfg)
        name email subject message ∧
    Sender.SendConfirmation (NewSender cfg) name email message =
      SendMailImpl.Sender.SendConfirmation (SendMailImpl.NewSender cfg) name email message :=
  ⟨rfl, rfl, rfl⟩

/-- C10: startup is fatal exactly when SMTPUser, SMTPPassword or
RecipientEmail is empty; FromEmail is never checked, so a process with an
empty FROM_EMAIL passes validation and composes every outgoing message with
an empty From header and an empty envelope sender. -/
theorem C10_from_email_unchecked (cfg : Config) (env : String → String) :
    (mainConfigFatal cfg = true ↔
      (cfg.SMTPUser = "" ∨ cfg.SMTPPassword = "" ∨ cfg.RecipientEmail = "")) ∧
    (env "SMTP_USER" ≠ "" → env "SMTP_PASSWORD" ≠ "" → env "RECIPIENT_EMAIL" ≠ "" →
      env "FROM_EMAIL" = "" →
      mainConfigFatal (Config.Load env) = false ∧
      (Config.Load env).FromEmail = "" ∧
      ∀ toAddr subject body,
        (Sender.Send (NewSender (Config.Load env)) toAddr subject body).mailFrom = "" ∧
        ∃ rest,
          (Sender.Send (NewSender (Config.Load env)) toAddr subject body).message =
            "From: \r\n" ++ rest) := by
  constructor
  · simp [mainConfigFatal, or_assoc]
  · intro hu hp hr hf
    have hu2 : (env "SMTP_USER" == "") = false := beq_eq_false_iff_ne.mpr hu
    have hp2 : (env "SMTP_PASSWORD" == "") = false := beq_eq_false_iff_ne.mpr hp
    have hr2 : (env "RECIPIENT_EMAIL" == "") = false := beq_eq_false_iff_ne.mpr hr
    refine ⟨?_, ?_, ?_⟩
    · simp [mainConfigFatal, Config.Load, getEnv, hu2, hp2, hr2, hu, hp, hr]
    · simp [Config.Load, getEnv, hf]
    · intro toAddr subject body
      have hFrom : (Config.Load env).FromEmail = "" := by simp [Config.Load, getEnv, hf]
      constructor
      · simp [Sender.Send, NewSender, hFrom]
      · refine ⟨"To: " ++ toAddr ++ "\r\n" ++ "Subject: " ++ subject ++ "\r\n" ++
          "MIME-Version: 1.0\r\n" ++ "Content-Type: text/html; charset=UTF-8\r\n" ++
          "\r\n" ++ body ++ "\r\n", ?_⟩
        have hlit : "From: \r\n" = "From: " ++ "\r\n" := rfl
        rw [hlit]
        simp only [Sender.Send, Sender.composeMessage, NewSender, hFrom, String.append_empty,
          String.append_assoc]

/-- C10 witness: a concrete environment with the three required variables set
and FROM_EMAIL unset. -/
theorem C10_witness :
    (mainConfigFatal testConfig = true ↔
      (testConfig.SMTPUser = "" ∨ testConfig.SMTPPassword = "" ∨
        testConfig.RecipientEmail = "")) ∧
    mainConfigFatal (Config.Load noFromEnv) = false ∧
    (Config.Load noFromEnv).FromEmail = "" ∧
    (Sender.Send (NewSender (Config.Load noFromEnv)) "to@example.com" "Subj" "Body").mailFrom
      = "" ∧
    ∃ rest,
      (Sender.Send (NewSender (Config.Load noFromEnv)) "to@example.com" "Subj" "Body").message =
        "From: \r\n" ++ rest := by
  have h := C10_from_email_unchecked testConfig noFromEnv
  have h2 := h.2 (by decide) (by decide) (by decide) (by decide)
  exact ⟨h.1, h2.1, h2.2.1, (h2.2.2 "to@example.com" "Subj" "Body").1,
    (h2.2.2 "to@example.com" "Subj" "Body").2⟩

/-! ### Round-trip lemmas for the two encodings -/

theorem hexDigitVal_toHexUpper (n : Nat) (h : n < 16) :
    hexDigitVal (toHexUpper n) = some n := by
  interval_cases n <;> rfl

theorem queryUnescape_escList (s : List Char) (hs : s.all plainChar = true) :
    queryUnescapeChars (escList s) = some s := by
  induction s with
  | nil => rfl
  | cons c cs ih =>
    rw [List.all_cons, Bool.and_eq_true] at hs
    obtain ⟨hc, hcs⟩ := hs
    have ih2 := ih hcs
    show queryUnescapeChars (queryEscapeChar c ++ escList cs) = some (c :: cs)
    by_cases h1 : (c.isAlphanum || c == '-' || c == '_' || c == '.' || c == '~') = true
    · have hne1 : (c == '%') = false := by
        apply beq_eq_false_iff_ne.mpr
        intro he; subst he; exact absurd h1 (by decide)
      have hne2 : (c == '+') = false := by
        apply beq_eq_false_iff_ne.mpr
        intro he; subst he; exact absurd h1 (by decide)
      have hstep : queryEscapeChar c = [c] := by simp [queryEscapeChar, h1]
      rw [hstep, List.singleton_append, queryUnescapeChars.eq_def]
      simp [hne1, hne2, ih2]
    · by_cases h2 : (c == ' ') = true
      · have hce : c = ' ' := beq_iff_eq.mp h2
        subst hce
        rw [show queryEscapeChar ' ' = ['+'] from rfl, List.singleton_append,
          queryUnescapeChars.eq_def]
        simp [ih2]
      · have h128 : c.toNat < 128 := by
          simp only [plainChar, Bool.and_eq_true, decide_eq_true_eq] at hc
          exact hc.1
        have hdiv : c.toNat / 16 < 16 := by omega
        have hmod : c.toNat % 16 < 16 := by omega
        have hstep : queryEscapeChar c =
            ['%', toHexUpper (c.toNat / 16), toHexUpper (c.toNat % 16)] := by
          simp [queryEscapeChar, h1, h2]
        rw [hstep, List.cons_append, List.cons_append, List.cons_append, List.nil_append,
          queryUnescapeChars.eq_def]
        simp [hexDigitVal_toHexUpper _ hdiv, hexDigitVal_toHexUpper _ hmod, ih2,
          Nat.div_add_mod, Char.ofNat_toNat]

theorem escList_no_amp_semi (s : List Char) (hs : s.all plainChar = true) (d : Char)
    (hd : d ∈ escList s) : d ≠ '&' ∧ d ≠ ';' := by
  induction s with
  | nil => simp [escList] at hd
  | cons c cs ih =>
    rw [List.all_cons, Bool.and_eq_true] at hs
    obtain ⟨hc, hcs⟩ := hs
    simp only [escList] at hd
    rcases List.mem_append.mp hd with h | h
    · by_cases h1 : (c.isAlphanum || c == '-' || c == '_' || c == '.' || c == '~') = true
      · simp [queryEscapeChar, h1] at h
        subst h
        constructor <;> (intro he; subst he; exact absurd h1 (by decide))
      · by_cases h2 : (c == ' ') = true
        · simp [queryEscapeChar, h1, h2] at h
          subst h
          exact ⟨by decide, by decide⟩
        · have h128 : c.toNat < 128 := by
            simp only [plainChar, Bool.and_eq_true, decide_eq_true_eq] at hc
            exact hc.1
          have hhex : ∀ n : Nat, n < 16 → toHexUpper n ≠ '&' ∧ toHexUpper n ≠ ';' := by
            intro n hn
            interval_cases n <;> exact ⟨by decide, by decide⟩
          simp [queryEscapeChar, h1, h2] at h
          rcases h with h | h | h
          · subst h; exact ⟨by decide, by decide⟩
          · subst h; exact hhex _ (by omega)
          · subst h; exact hhex _ (by omega)
    · exact ih hcs h

theorem splitOnChar_sep_append (sep : Char) (s t : List Char) (h : sep ∉ s) :
    splitOnChar sep (s ++ sep :: t) = s :: splitOnChar sep t := by
  induction s with
  | nil => simp [splitOnChar]
  | cons c cs ih =>
    have hc : (c == sep) = false := by
      apply beq_eq_false_iff_ne.mpr
      intro he; exact h (by rw [he]; exact List.mem_cons_self _ _)
    have hcs : sep ∉ cs := fun hm => h (List.mem_cons_of_mem _ hm)
    simp [splitOnChar, hc, ih hcs]

theorem splitOnChar_no_sep (sep : Char) (s : List Char) (h : sep ∉ s) :
    splitOnChar sep s = [s] := by
  induction s with
  | nil => rfl
  | cons c cs ih =>
    have hc : (c == sep) = false := by
      apply beq_eq_false_iff_ne.mpr
      intro he; exact h (by rw [he]; exact List.mem_cons_self _ _)
    have hcs : sep ∉ cs := fun hm => h (List.mem_cons_of_mem _ hm)
    simp [splitOnChar, hc, ih hcs]

theorem takeWhile_until_eq (k v : List Char) (hk : '=' ∉ k) :
    (k ++ '=' :: v).takeWhile (fun c => c != '=') = k := by
  induction k with
  | nil => simp [List.takeWhile_cons]
  | cons c cs ih =>
    have hcne : c ≠ '=' := fun he => hk (by rw [he]; exact List.mem_cons_self _ _)
    have hcs : '=' ∉ cs := fun hm => hk (List.mem_cons_of_mem _ hm)
    simp [List.takeWhile_cons, bne_iff_ne.mpr hcne, ih hcs]

theorem dropWhile_until_eq (k v : List Char) (hk : '=' ∉ k) :
    (k ++ '=' :: v).dropWhile (fun c => c != '=') = '=' :: v := by
  induction k with
  | nil => simp [List.dropWhile_cons]
  | cons c cs ih =>
    have hcne : c ≠ '=' := fun he => hk (by rw [he]; exact List.mem_cons_self _ _)
    have hcs : '=' ∉ cs := fun hm => hk (List.mem_cons_of_mem _ hm)
    simp [List.dropWhile_cons, bne_iff_ne.mpr hcne, ih hcs]

theorem parseQuerySegs_kv (key : List Char) (v : String) (rest : List (List Char))
    (hkeq : '=' ∉ key) (hksemi : ';' ∉ key)
    (hkun : queryUnescapeChars key = some key)
    (hv : v.toList.all plainChar = true) :
    parseQuerySegs ((key ++ '=' :: escList v.toList) :: rest) =
      (parseQuerySegs rest).map fun ps => (String.mk key, v) :: ps := by
  have hsemi : ((key ++ '=' :: escList v.toList).contains ';') = false := by
    rw [Bool.eq_false_iff]
    intro hcontains
    have hmem : ';' ∈ key ++ '=' :: escList v.toList := by
      simpa [List.elem_iff] using hcontains
    rcases List.mem_append.mp hmem with h | h
    · exact hksemi h
    · rcases List.mem_cons.mp h with h | h
      · exact absurd h (by decide)
      · exact (escList_no_amp_semi _ hv _ h).2 rfl
  have hne : ((key ++ '=' :: escList v.toList).isEmpty) = false := by
    cases key <;> rfl
  simp only [parseQuerySegs, hsemi, hne, Bool.false_eq_true, if_false,
    takeWhile_until_eq _ _ hkeq, dropWhile_until_eq _ _ hkeq, List.drop_succ_cons,
    List.drop_zero, hkun, queryUnescape_escList _ hv]
  rfl

theorem ParseQuery_formEncode (f : ContactForm) (hf : plainForm f = true) :
    ParseQuery (formEncode f) =
      .ok [("name", f.name), ("email", f.email), ("subject", f.subject),
           ("message", f.message)] := by
  simp only [plainForm, plainString, Bool.and_eq_true] at hf
  obtain ⟨⟨⟨h1, h2⟩, h3⟩, h4⟩ := hf
  have amp : ∀ (key : List Char), '&' ∉ key → ∀ (v : String), v.toList.all plainChar = true →
      '&' ∉ key ++ '=' :: escList v.toList := by
    intro key hknot v hv hmem
    rcases List.mem_append.mp hmem with h | h
    · exact hknot h
    · rcases List.mem_cons.mp h with h | h
      · exact absurd h (by decide)
      · exact (escList_no_amp_semi _ hv _ h).1 rfl
  have hs1 := amp "name".toList (by decide) f.name h1
  have hs2 := amp "email".toList (by decide) f.email h2
  have hs3 := amp "subject".toList (by decide) f.subject h3
  have hs4 := amp "message".toList (by decide) f.message h4
  have hsplit : splitOnChar '&' (formEncodeChars f) =
      [("name".toList ++ '=' :: escList f.name.toList),
       ("email".toList ++ '=' :: escList f.email.toList),
       ("subject".toList ++ '=' :: escList f.subject.toList),
       ("message".toList ++ '=' :: escList f.message.toList)] := by
    show splitOnChar '&'
      (("name".toList ++ '=' :: escList f.name.toList) ++ '&' ::
        (("email".toList ++ '=' :: escList f.email.toList) ++ '&' ::
          (("subject".toList ++ '=' :: escList f.subject.toList) ++ '&' ::
            ("message".toList ++ '=' :: escList f.message.toList)))) = _
    rw [splitOnChar_sep_append _ _ _ hs1, splitOnChar_sep_append _ _ _ hs2,
      splitOnChar_sep_append _ _ _ hs3, splitOnChar_no_sep _ _ hs4]
  show parseQuerySegs (splitOnChar '&' (formEncodeChars f)) = _
  rw [hsplit,
    parseQuerySegs_kv "name".toList f.name _ (by decide) (by decide) rfl h1,
    parseQuerySegs_kv "email".toList f.email _ (by decide) (by decide) rfl h2,
    parseQuerySegs_kv "subject".toList f.subject _ (by decide) (by decide) rfl h3,
    parseQuerySegs_kv "message".toList f.message _ (by decide) (by decide) rfl h4]
  rfl

theorem parseContactForm_formEncode (f : ContactForm) (hf : plainForm f = true) :
    parseContactForm
      { method := "POST", contentType := "application/x-www-form-urlencoded",
        body := formEncode f } = .ok f := by
  have hpp : parsePostForm "application/x-www-form-urlencoded" (formEncode f) =
      .ok [("name", f.name), ("email", f.email), ("subject", f.subject),
           ("message", f.message)] := by
    rw [show parsePostForm "application/x-www-form-urlencoded" (formEncode f) =
      ParseQuery (formEncode f) from rfl, ParseQuery_formEncode f hf]
  unfold parseContactForm
  rw [show goContains "application/x-www-form-urlencoded" "application/json" = false from rfl]
  simp only [Bool.false_eq_true, if_false, hpp]
  rfl

theorem jsonString_escape_round (s rest : List Char) (hs : s.all plainChar = true) :
    jsonString (jsonEscList s ++ '"' :: rest) = some (s, rest) := by
  induction s with
  | nil =>
    show jsonString ('"' :: rest) = some ([], rest)
    rw [jsonString.eq_def]
    simp
  | cons c cs ih =>
    rw [List.all_cons, Bool.and_eq_true] at hs
    obtain ⟨hc, hcs⟩ := hs
    have ih2 := ih hcs
    show jsonString ((jsonEscapeChar c ++ jsonEscList cs) ++ '"' :: rest) = some (c :: cs, rest)
    by_cases h1 : (c == '"') = true
    · have hce := beq_iff_eq.mp h1; subst hce
      rw [show jsonEscapeChar '"' = ['\\', '"'] from rfl]
      simp only [List.cons_append, List.nil_append, List.append_assoc]
      rw [jsonString.eq_def]
      simp [show jsonEsc '"' = some '"' from rfl, ih2]
    · by_cases h2 : (c == '\\') = true
      · have hce := beq_iff_eq.mp h2; subst hce
        rw [show jsonEscapeChar '\\' = ['\\', '\\'] from rfl]
        simp only [List.cons_append, List.nil_append, List.append_assoc]
        rw [jsonString.eq_def]
        simp [show jsonEsc '\\' = some '\\' from rfl, ih2]
      · by_cases h3 : (c == '\n') = true
        · have hce := beq_iff_eq.mp h3; subst hce
          rw [show jsonEscapeChar '\n' = ['\\', 'n'] from rfl]
          simp only [List.cons_append, List.nil_append, List.append_assoc]
          rw [jsonString.eq_def]
          simp [show jsonEsc 'n' = some '\n' from rfl, ih2]
        · by_cases h4 : (c == '\t') = true
          · have hce := beq_iff_eq.mp h4; subst hce
            rw [show jsonEscapeChar '\t' = ['\\', 't'] from rfl]
            simp only [List.cons_append, List.nil_append, List.append_assoc]
            rw [jsonString.eq_def]
            simp [show jsonEsc 't' = some '\t' from rfl, ih2]
          · by_cases h5 : (c == '\r') = true
            · have hce := beq_iff_eq.mp h5; subst hce
              rw [show jsonEscapeChar '\r' = ['\\', 'r'] from rfl]
              simp only [List.cons_append, List.nil_append, List.append_assoc]
              rw [jsonString.eq_def]
              simp [show jsonEsc 'r' = some '\r' from rfl, ih2]
            · have hstep : jsonEscapeChar c = [c] := by
                simp [jsonEscapeChar, h1, h2, h3, h4, h5]
              rw [hstep]
              simp only [List.cons_append, List.nil_append, List.append_assoc]
              rw [jsonString.eq_def]
              simp [h1, h2, ih2]

theorem jsonPairs_member_comma (n : Nat) (k v : String) (rest : List Char)
    (hk : k.toList.all plainChar = true) (hv : v.toList.all plainChar = true) :
    jsonPairs (n + 1) (keyval k v (',' :: rest)) =
      (jsonPairs n rest).map fun p => ((k, v) :: p.1, p.2) := by
  show jsonPairs (n + 1)
      ('"' :: (jsonEscList k.toList ++ '"' :: ':' :: '"' ::
        (jsonEscList v.toList ++ '"' :: (',' :: rest)))) = _
  rw [jsonPairs.eq_def]
  simp only [List.dropWhile_cons, show isWsChar '"' = false from rfl, Bool.false_eq_true,
    if_false, beq_self_eq_true, if_true, jsonString_escape_round _ _ hk,
    show isWsChar ':' = false from rfl, show isWsChar ',' = false from rfl,
    jsonString_escape_round _ _ hv]
  rfl

theorem jsonPairs_member_last (n : Nat) (k v : String) (rest : List Char)
    (hk : k.toList.all plainChar = true) (hv : v.toList.all plainChar = true) :
    jsonPairs (n + 1) (keyval k v ('}' :: rest)) = some ([(k, v)], rest) := by
  show jsonPairs (n + 1)
      ('"' :: (jsonEscList k.toList ++ '"' :: ':' :: '"' ::
        (jsonEscList v.toList ++ '"' :: ('}' :: rest)))) = _
  rw [jsonPairs.eq_def]
  simp only [List.dropWhile_cons, show isWsChar '"' = false from rfl, Bool.false_eq_true,
    if_false, beq_self_eq_true, if_true, jsonString_escape_round _ _ hk,
    show isWsChar ':' = false from rfl, show isWsChar '}' = false from rfl,
    jsonString_escape_round _ _ hv]
  rfl

theorem jsonDecode_jsonEncode (f : ContactForm) (hf : plainForm f = true) :
    jsonDecodeContactForm (jsonEncode f) = .ok f := by
  have hf2 := hf
  simp only [plainForm, plainString, Bool.and_eq_true] at hf2
  obtain ⟨⟨⟨h1, h2⟩, h3⟩, h4⟩ := hf2
  have hlen : 4 ≤ (keyval "name" f.name (',' ::
      keyval "email" f.email (',' ::
        keyval "subject" f.subject (',' ::
          keyval "message" f.message ['}'])))).length := by
    simp [keyval, List.length_append]
    omega
  obtain ⟨m, hm⟩ := Nat.exists_eq_add_of_le hlen
  show (match (jsonEncode f).toList.dropWhile isWsChar with
    | [] => Except.error "invalid JSON value"
    | c :: rest =>
      if c == '{' then
        match rest.dropWhile isWsChar with
        | [] => Except.error "invalid JSON value"
        | c2 :: _ =>
          if c2 == '}' then Except.ok { name := "", email := "", subject := "", message := "" }
          else
            match jsonPairs rest.length rest with
            | some (pairs, _) =>
              Except.ok (pairs.foldl applyJsonPair
                { name := "", email := "", subject := "", message := "" })
            | none => Except.error "invalid JSON value"
      else Except.error "invalid JSON value") = Except.ok f
  rw [show (jsonEncode f).toList = '{' :: keyval "name" f.name (',' ::
      keyval "email" f.email (',' ::
        keyval "subject" f.subject (',' ::
          keyval "message" f.message ['}']))) from rfl]
  rw [show ∀ l : List Char, ('{' :: l).dropWhile isWsChar = '{' :: l from fun l => rfl]
  simp only [beq_self_eq_true, if_true]
  rw [show (keyval "name" f.name (',' ::
      keyval "email" f.email (',' ::
        keyval "subject" f.subject (',' ::
          keyval "message" f.message ['}'])))).dropWhile isWsChar =
      keyval "name" f.name (',' ::
      keyval "email" f.email (',' ::
        keyval "subject" f.subject (',' ::
          keyval "message" f.message ['}']))) from rfl]
  rw [hm, show 4 + m = (m + 3) + 1 from by omega,
    jsonPairs_member_comma _ _ _ _ (by decide) h1,
    show m + 3 = (m + 2) + 1 from rfl,
    jsonPairs_member_comma _ _ _ _ (by decide) h2,
    show m + 2 = (m + 1) + 1 from rfl,
    jsonPairs_member_comma _ _ _ _ (by decide) h3,
    jsonPairs_member_last _ _ _ _ (by decide) h4]
  rfl

/-- C8: a payload expressible in both encodings (plain-ASCII fields,
rendered by the JSON and URL encoders) parses identically on the JSON path
and on the form path — both yield exactly the payload's four fields. -/
theorem C8_encodings_parse_identically (f : ContactForm) (hf : plainForm f = true) :
    parseContactForm
      { method := "POST", contentType := "application/json", body := jsonEncode f } =
        .ok f ∧
    parseContactForm
      { method := "POST", contentType := "application/x-www-form-urlencoded",
        body := formEncode f } = .ok f := by
  constructor
  · have hj := jsonDecode_jsonEncode f hf
    unfold parseContactForm
    rw [show goContains "application/json" "application/json" = true from rfl]
    simp only [if_true, hj]
  · exact parseContactForm_formEncode f hf

/-- C8 witness: the specification's Ada payload; its two renderings are the
concrete bodies named by the specification and both parse to the same
fields. -/
theorem C8_witness :
    plainForm adaSimpleForm = true ∧
    formEncode adaSimpleForm = "name=Ada&email=ada%40example.com&subject=Hi&message=Hello" ∧
    jsonEncode adaSimpleForm =
      "\x7b\"name\":\"Ada\",\"email\":\"ada@example.com\",\"subject\":\"Hi\",\"message\":\"Hello\"\x7d" ∧
    parseContactForm
      { method := "POST", contentType := "application/json",
        body := jsonEncode adaSimpleForm } = .ok adaSimpleForm ∧
    parseContactForm
      { method := "POST", contentType := "application/x-www-form-urlencoded",
        body := formEncode adaSimpleForm } = .ok adaSimpleForm :=
  ⟨by rfl, by rfl, by rfl,
   (C8_encodings_parse_identically adaSimpleForm (by rfl)).1,
   (C8_encodings_parse_identically adaSimpleForm (by rfl)).2⟩

end Form2Mail
